import Mathlib

/-!
Verification of the incremental-processing core of the USPTO monitoring
backend (`lawmatics-auth-backend`).

The JavaScript source is shallowly embedded:

* JS strings are Lean `String`s; the JS relational operators `<`, `>`, `>=`
  on strings compare code units lexicographically, which we model by the
  lexicographic order on the lists of character codes (`codes`).
* A JS `Date` value is represented by `JSDate`, wrapping the string its
  `toISOString()` would return; `date.toISOString().split('T')[0]` is
  `dateKey`.  `Date` values are totally ordered by their numeric time; for
  the fixed-width strings produced by `toISOString` this order coincides
  with the lexicographic order on the strings, which is how the embedding
  compares two `JSDate`s.
* The JSON object `lastProcessedState` (application number → last processed
  date) is a function `String → Option String` (`none` = property absent).
* `async` functions that perform I/O are embedded as pure functions over the
  data the I/O would deliver; calls that can reject are given an
  `Except String _` parameter describing the outcome of the awaited call.
-/

namespace USPTO

/-- Character-code view of a string: JS compares strings by their sequences
of code units, so the JS operators `<` / `>` / `>=` on strings are embedded
as the lexicographic order on `codes`. -/
def codes (s : String) : List Nat := s.data.map Char.toNat

/-- JS `a < b` on strings. -/
def jsLt (a b : String) : Bool := decide (codes a < codes b)

/-- JS `a > b` on strings. -/
def jsGt (a b : String) : Bool := jsLt b a

/-- JS `a >= b` on strings (total order: `a >= b` iff not `a < b`). -/
def jsGe (a b : String) : Bool := !(jsLt a b)

/-- JS truthiness of a possibly-absent string value: `undefined` and the
empty string are falsy, every other string is truthy. -/
def jsTruthy : Option String → Bool
  | none => false
  | some s => !(s == "")

/-- A JS `Date` value, represented by the ISO timestamp that its
`toISOString()` returns (e.g. `"2024-03-01T10:15:00.000Z"`). -/
structure JSDate where
  iso : String
deriving DecidableEq, Repr

/-- Embedding of `docDate.toISOString().split('T')[0]`: the part of the ISO
string before the first `T`. -/
def dateKey (d : JSDate) : String :=
  (d.iso.data.takeWhile (fun c => c != 'T')).asString

/-- Embedding of `isNewDocument(docDate, lastProcessedDate, todayDate)` from
`src/lib/unified-uspto-monitor.js` lines 105-117 (the copy in
`src/Googlecron.js` lines 105-117 is textually identical):

```js
const docDateStr = docDate.toISOString().split('T')[0];
if (lastProcessedDate) { return docDateStr > lastProcessedDate; }
return docDateStr >= todayDate;
```
-/
def isNewDocument (docDate : JSDate) (lastProcessedDate : Option String)
    (todayDate : String) : Bool :=
  let docDateStr := dateKey docDate
  if jsTruthy lastProcessedDate then
    jsGt docDateStr (lastProcessedDate.getD "")
  else
    jsGe docDateStr todayDate

theorem jsGt_eq (a b : String) : jsGt a b = decide (codes b < codes a) := rfl

theorem jsGe_iff (a b : String) : jsGe a b = true ↔ codes b ≤ codes a := by
  simp [jsGe, jsLt, not_lt]

theorem jsGt_iff (a b : String) : jsGt a b = true ↔ codes b < codes a := by
  simp [jsGt, jsLt]

/-- The claim of C1 fails on the code for a present-but-empty marker: JS
treats the empty string as falsy, so `isNewDocument` compares against
`todayDate` instead of the marker.  Concretely, with document date
`2024-01-01`, marker `""` and today `2025-01-01`, the document's date
string is strictly greater than the marker (lexicographically), yet
`isNewDocument` returns `false`. -/
theorem isNewDocument_present_empty_marker_cex :
    isNewDocument ⟨"2024-01-01T00:00:00.000Z"⟩ (some "") "2025-01-01" = false
    ∧ jsGt (dateKey ⟨"2024-01-01T00:00:00.000Z"⟩) "" = true := by
  constructor
  · decide
  · decide

/-- C1 (amended): when the last-processed marker is present and non-empty,
`isNewDocument` returns `true` iff the document's `YYYY-MM-DD` string is
strictly greater than the marker; when the marker is absent, it returns
`true` iff the document's date string is greater than or equal to
`todayDate`; a present-but-empty marker behaves exactly like an absent
one. -/
theorem isNewDocument_novelty_spec (docDate : JSDate) (l todayDate : String) :
    (l ≠ "" →
      (isNewDocument docDate (some l) todayDate = true
        ↔ codes l < codes (dateKey docDate)))
    ∧ (isNewDocument docDate none todayDate = true
        ↔ codes todayDate ≤ codes (dateKey docDate))
    ∧ isNewDocument docDate (some "") todayDate
        = isNewDocument docDate none todayDate := by
  refine ⟨fun hl => ?_, ?_, ?_⟩
  · simp [isNewDocument, jsTruthy, hl, jsGt_iff]
  · simp [isNewDocument, jsTruthy, jsGe_iff]
  · simp [isNewDocument, jsTruthy]

theorem isNewDocument_novelty_spec_witness :
    ("2024-02-15" ≠ "") ∧
    (isNewDocument ⟨"2024-03-01T10:15:00.000Z"⟩ (some "2024-02-15") "2024-03-05" = true
      ↔ codes "2024-02-15" < codes (dateKey ⟨"2024-03-01T10:15:00.000Z"⟩)) :=
  ⟨by decide,
   (isNewDocument_novelty_spec ⟨"2024-03-01T10:15:00.000Z"⟩ "2024-02-15" "2024-03-05").1
     (by decide)⟩

/-- C10: with the same document date and the same present, non-empty
last-processed marker, the result of `isNewDocument` does not depend on the
`todayDate` argument. -/
theorem isNewDocument_today_independent (docDate : JSDate) (l t1 t2 : String)
    (hl : l ≠ "") :
    isNewDocument docDate (some l) t1 = isNewDocument docDate (some l) t2 := by
  simp [isNewDocument, jsTruthy, hl]

theorem isNewDocument_today_independent_witness :
    isNewDocument ⟨"2024-03-01T10:15:00.000Z"⟩ (some "2024-02-15") "2020-01-01"
      = isNewDocument ⟨"2024-03-01T10:15:00.000Z"⟩ (some "2024-02-15") "2030-01-01" :=
  isNewDocument_today_independent ⟨"2024-03-01T10:15:00.000Z"⟩ "2024-02-15"
    "2020-01-01" "2030-01-01" (by decide)

/-- A parsed document as produced by the fetchers of
`src/lib/unified-uspto-monitor.js` (`{date, description, link}`; the extra
patent-only fields do not participate in the novelty logic). -/
structure Doc where
  date : JSDate
  description : String
  link : String
deriving DecidableEq, Repr

/-- A tracked matter from `map.json`: `{applicationNumber, lawmaticsID, type}`. -/
structure Matter where
  applicationNumber : String
  lawmaticsID : String
  type : String
deriving DecidableEq, Repr

/-- The `lastProcessedState` JSON object: application number → last processed
date string; `none` models an absent property. -/
def StateMap : Type := String → Option String

/-- JS property assignment `state[k] = v`. -/
def stateSet (s : StateMap) (k v : String) : StateMap :=
  fun k2 => if k2 = k then some v else s k2

/-- Result record of `processMatter` in `src/lib/unified-uspto-monitor.js`,
together with the two observable effects the claims are about: the list of
documents handed to `processSingleDocument` (the side-effect pipeline), in
order, and the `lastProcessedState` mapping after the call. -/
structure MatterOutcome where
  processed : Bool
  reason : Option String
  docCount : Nat
  latestDocDate : Option String
  pipelineDocs : List Doc
  state : StateMap

/-- Embedding of `processMatter(matter, lastProcessedState, todayDate)` from
`src/lib/unified-uspto-monitor.js` lines 723-814.  The document list that
`fetchAllPatentDocs` / `fetchAllTrademarkDocs` would return for the matter is
passed in as `allDocs` (both fetchers are invoked the same way and their
result is used identically).  The body follows the source:

* unknown `type` → `{processed:false, reason:'unknown_type'}`;
* `allDocs.length === 0` → `{processed:false, reason:'no_documents'}`;
* `newDocs := allDocs.filter(doc => isNewDocument(doc.date, lastProcessedDate, todayDate))`,
  empty → `{processed:false, reason:'not_new'}`;
* otherwise `latestDate := newDocs[0].date.toISOString().split('T')[0]`,
  every document of `newDocs` whose date key equals `latestDate` is run
  through `processSingleDocument`, and afterwards
  `lastProcessedState[applicationNumber] = latestDate`.

This definition is total: it describes the executions on which every
awaited `processSingleDocument` call completes.  The exception-aware
refinement is `processMatterRun` below, which agrees with it on those
executions (`processMatterRun_refines_processMatter`) and returns the
state unchanged when a pipeline call rejects
(`processMatterRun_throw_state_unchanged`). -/
def processMatter (matter : Matter) (allDocs : List Doc)
    (lastProcessedState : StateMap) (todayDate : String) : MatterOutcome :=
  if matter.type ≠ "Patent" ∧ matter.type ≠ "Trademark" then
    ⟨false, some "unknown_type", 0, none, [], lastProcessedState⟩
  else if allDocs.isEmpty then
    ⟨false, some "no_documents", 0, none, [], lastProcessedState⟩
  else
    let lastProcessedDate := lastProcessedState matter.applicationNumber
    match allDocs.filter
        (fun doc => isNewDocument doc.date lastProcessedDate todayDate) with
    | [] =>
      ⟨false, some "not_new", 0,
        (allDocs.head?).map (fun d => dateKey d.date), [], lastProcessedState⟩
    | d0 :: rest =>
      let latestDate := dateKey d0.date
      let latestDateDocs :=
        (d0 :: rest).filter (fun doc => dateKey doc.date = latestDate)
      ⟨decide (0 < latestDateDocs.length), none, latestDateDocs.length,
        some latestDate, latestDateDocs,
        stateSet lastProcessedState matter.applicationNumber latestDate⟩

/-- If `isNewDocument` accepted a document against a present marker `l`,
then `l` is lexicographically at most the document's date key (for a
non-empty marker the comparison was strict; an empty marker is below every
string). -/
theorem marker_le_of_isNewDocument (d : JSDate) (l todayDate : String)
    (h : isNewDocument d (some l) todayDate = true) :
    codes l ≤ codes (dateKey d) := by
  by_cases hl : l = ""
  · subst hl
    simp only [codes, String.data, List.map]
    exact List.nil_le
  · exact le_of_lt (((isNewDocument_novelty_spec d l todayDate).1 hl).mp h)

namespace Cron

/-- Result of the legacy `processMatter` of `src/Googlecron.js`: the
`processed` flag and the `lastProcessedState` mapping after the call. -/
structure CronMatterOutcome where
  processed : Bool
  state : StateMap

/-- Embedding of the legacy `processMatter(matter, lastProcessedState,
todayDate)` from `src/Googlecron.js` lines 660-718.  This variant fetches
only the latest document (`fetchPatentDoc` / `fetchTrademarkDoc` return the
head of the descending-sorted list, or `null`; passed in as `latestDoc`)
and, when `isNewDocument` accepts it, runs the side-effect chain and stores
`lastProcessedState[applicationNumber] = docDateStr`. -/
def processMatter (matter : Matter) (latestDoc : Option Doc)
    (lastProcessedState : StateMap) (todayDate : String) : CronMatterOutcome :=
  if matter.type ≠ "Patent" ∧ matter.type ≠ "Trademark" then
    ⟨false, lastProcessedState⟩
  else
    match latestDoc with
    | none => ⟨false, lastProcessedState⟩
    | some doc =>
      if isNewDocument doc.date (lastProcessedState matter.applicationNumber)
          todayDate then
        ⟨true,
          stateSet lastProcessedState matter.applicationNumber (dateKey doc.date)⟩
      else
        ⟨false, lastProcessedState⟩

end Cron

/-- C3: neither variant of `processMatter` ever moves the processed-state
entry of the matter's application number backwards: whatever date string it
held before the call, after the call it holds a (lexicographically)
greater-or-equal date string. -/
theorem processMatter_state_monotone (matter : Matter) (allDocs : List Doc)
    (state : StateMap) (todayDate : String) (d : String)
    (h : state matter.applicationNumber = some d) :
    (∃ d2, (processMatter matter allDocs state todayDate).state
            matter.applicationNumber = some d2
      ∧ codes d ≤ codes d2)
    ∧ ∀ latestDoc, ∃ d2,
        (Cron.processMatter matter latestDoc state todayDate).state
            matter.applicationNumber = some d2
      ∧ codes d ≤ codes d2 := by
  constructor
  case right =>
    intro latestDoc
    unfold Cron.processMatter
    by_cases hty : matter.type ≠ "Patent" ∧ matter.type ≠ "Trademark"
    · exact ⟨d, by simp [hty]; exact h, le_refl _⟩
    · cases latestDoc with
      | none => exact ⟨d, by simp [hty]; exact h, le_refl _⟩
      | some doc =>
        by_cases hnew : isNewDocument doc.date
            (state matter.applicationNumber) todayDate = true
        · refine ⟨dateKey doc.date, by simp [hty, hnew, stateSet], ?_⟩
          rw [h] at hnew
          exact marker_le_of_isNewDocument _ _ _ hnew
        · exact ⟨d, by simp [hty, hnew]; exact h, le_refl _⟩
  unfold processMatter
  by_cases hty : matter.type ≠ "Patent" ∧ matter.type ≠ "Trademark"
  · exact ⟨d, by simp [hty]; exact h, le_refl _⟩
  · by_cases hemp : allDocs.isEmpty
    · exact ⟨d, by simp [hty, hemp]; exact h, le_refl _⟩
    · rcases hfil : allDocs.filter
          (fun doc =>
            isNewDocument doc.date (state matter.applicationNumber) todayDate)
        with _ | ⟨d0, rest⟩
      · exact ⟨d, by simp [hty, hemp, hfil]; exact h, le_refl _⟩
      · refine ⟨dateKey d0.date, by simp [hty, hemp, hfil, stateSet], ?_⟩
        have hd0 : isNewDocument d0.date (state matter.applicationNumber)
            todayDate = true := by
          have := List.mem_filter.mp (hfil ▸ List.mem_cons_self d0 rest)
          simpa using this.2
        rw [h] at hd0
        exact marker_le_of_isNewDocument _ _ _ hd0

theorem processMatter_state_monotone_witness :
    ((fun k => if k = "12345" then some "2024-02-15" else none) : StateMap)
        "12345" = some "2024-02-15"
    ∧ ∃ d2,
        (processMatter ⟨"12345", "lm1", "Trademark"⟩
            [⟨⟨"2024-03-01T10:15:00.000Z"⟩, "NOTICE", "http://x"⟩]
            (fun k => if k = "12345" then some "2024-02-15" else none)
            "2024-03-05").state "12345" = some d2
        ∧ codes "2024-02-15" ≤ codes d2 :=
  ⟨by decide,
   (processMatter_state_monotone ⟨"12345", "lm1", "Trademark"⟩
     [⟨⟨"2024-03-01T10:15:00.000Z"⟩, "NOTICE", "http://x"⟩]
     (fun k => if k = "12345" then some "2024-02-15" else none)
     "2024-03-05" "2024-02-15" (by decide)).1⟩

/-- Per-document pipeline loop of `processMatter`
(`src/lib/unified-uspto-monitor.js` lines 787-800): each document of the
latest date is awaited through `processSingleDocument`.  `pipeline doc`
models that awaited call; `Except.error` models a rejection (inside it,
`sendEmailNotification`'s `transporter.sendMail` has no `try/catch`), which
propagates and stops the loop.  Returns the documents handed to
`processSingleDocument`, in order, and the propagated error, if any. -/
def pipelineLoop (pipeline : Doc → Except String Unit) :
    List Doc → List Doc × Option String
  | [] => ([], none)
  | d :: ds =>
    match pipeline d with
    | Except.error e => ([d], some e)
    | Except.ok _ =>
      let t := pipelineLoop pipeline ds
      (d :: t.1, t.2)

/-- Exception-aware embedding of `processMatter` (same source lines as
`processMatter` above): the outcome of each awaited `processSingleDocument`
call is a parameter, the document loop stops at the first rejection, and
the state assignment `lastProcessedState[applicationNumber] = latestDate`
(line 803) runs only when the whole batch completed.  Returns (documents
handed to `processSingleDocument`, resulting `lastProcessedState`,
propagated error if any). -/
def processMatterRun (matter : Matter) (allDocs : List Doc)
    (lastProcessedState : StateMap) (todayDate : String)
    (pipeline : Doc → Except String Unit) :
    List Doc × StateMap × Option String :=
  if matter.type ≠ "Patent" ∧ matter.type ≠ "Trademark" then
    ([], lastProcessedState, none)
  else if allDocs.isEmpty then
    ([], lastProcessedState, none)
  else
    let lastProcessedDate := lastProcessedState matter.applicationNumber
    match allDocs.filter
        (fun doc => isNewDocument doc.date lastProcessedDate todayDate) with
    | [] => ([], lastProcessedState, none)
    | d0 :: rest =>
      let latestDate := dateKey d0.date
      let latestDateDocs :=
        (d0 :: rest).filter (fun doc => dateKey doc.date = latestDate)
      let t := pipelineLoop pipeline latestDateDocs
      match t.2 with
      | some e => (t.1, lastProcessedState, some e)
      | none =>
        (t.1, stateSet lastProcessedState matter.applicationNumber latestDate,
          none)

theorem pipelineLoop_ok (pipeline : Doc → Except String Unit)
    (ds : List Doc) (h : ∀ d ∈ ds, pipeline d = Except.ok ()) :
    pipelineLoop pipeline ds = (ds, none) := by
  induction ds with
  | nil => rfl
  | cons d ds ih =>
    unfold pipelineLoop
    rw [h d (List.mem_cons_self d ds)]
    simp [ih (fun x hx => h x (List.mem_cons_of_mem d hx))]

/-- On executions where no awaited pipeline call rejects, the
exception-aware model coincides with the total `processMatter`: the same
documents are handed to the pipeline and the same state results (so
`processMatter` is exactly the completed-batch behaviour). -/
theorem processMatterRun_refines_processMatter (matter : Matter)
    (allDocs : List Doc) (state : StateMap) (todayDate : String)
    (pipeline : Doc → Except String Unit)
    (hok : ∀ doc, pipeline doc = Except.ok ()) :
    (processMatterRun matter allDocs state todayDate pipeline).1
      = (processMatter matter allDocs state todayDate).pipelineDocs
    ∧ (processMatterRun matter allDocs state todayDate pipeline).2.1
      = (processMatter matter allDocs state todayDate).state
    ∧ (processMatterRun matter allDocs state todayDate pipeline).2.2 = none := by
  unfold processMatterRun processMatter
  by_cases hty : matter.type ≠ "Patent" ∧ matter.type ≠ "Trademark"
  · simp [hty]
  · by_cases hemp : allDocs.isEmpty
    · simp [hty, hemp]
    · rcases hfil : allDocs.filter
          (fun doc =>
            isNewDocument doc.date (state matter.applicationNumber) todayDate)
        with _ | ⟨d0, rest⟩
      · simp [hty, hemp, hfil]
      · have hloop2 : pipelineLoop pipeline
            (d0 :: rest.filter (fun doc => dateKey doc.date = dateKey d0.date))
            = (d0 :: rest.filter (fun doc => dateKey doc.date = dateKey d0.date),
              none) := by
          simpa using pipelineLoop_ok pipeline
            ((d0 :: rest).filter
              (fun doc => dateKey doc.date = dateKey d0.date))
            (fun d _ => hok d)
        simp [hty, hemp, hfil, hloop2]

/-- When an awaited pipeline call rejects, the batch loop aborts before the
state assignment, so the processed-state mapping is returned unchanged
(the C3/C9 theorems about `processMatter` therefore also describe the
throwing executions, on which nothing is written). -/
theorem processMatterRun_throw_state_unchanged (matter : Matter)
    (allDocs : List Doc) (state : StateMap) (todayDate : String)
    (pipeline : Doc → Except String Unit) (e : String)
    (h : (processMatterRun matter allDocs state todayDate pipeline).2.2
        = some e) :
    (processMatterRun matter allDocs state todayDate pipeline).2.1 = state := by
  unfold processMatterRun at h ⊢
  by_cases hty : matter.type ≠ "Patent" ∧ matter.type ≠ "Trademark"
  · simp [hty]
  · by_cases hemp : allDocs.isEmpty
    · simp [hty, hemp]
    · rcases hfil : allDocs.filter
          (fun doc =>
            isNewDocument doc.date (state matter.applicationNumber) todayDate)
        with _ | ⟨d0, rest⟩
      · simp [hty, hemp, hfil]
      · rcases hl : (pipelineLoop pipeline
            (d0 :: rest.filter
              (fun doc => dateKey doc.date = dateKey d0.date))).2
          with _ | e2
        · simp [hty, hemp, hfil, hl] at h
        · simp [hty, hemp, hfil, hl]

/-- The claim of C2 fails on the code when an awaited pipeline call rejects
mid-batch: with two novel documents sharing the latest date and the first
document's `processSingleDocument` rejecting (the un-caught
`transporter.sendMail` of `sendEmailNotification`), only the first document
is handed to the pipeline — the second same-date document is skipped — and
the processed-state entry is not advanced at all. -/
theorem processMatterRun_pipeline_abort_cex :
    1 < (([(⟨⟨"2024-03-01T10:00:00.000Z"⟩, "NOA", "http://a"⟩ : Doc),
           ⟨⟨"2024-03-01T08:00:00.000Z"⟩, "XML", "http://b"⟩].filter
          (fun doc =>
            isNewDocument doc.date (((fun _ => none) : StateMap) "12345")
              "2024-03-01")).filter
          (fun doc =>
            dateKey doc.date
              = dateKey (⟨"2024-03-01T10:00:00.000Z"⟩ : JSDate))).length
    ∧ (processMatterRun ⟨"12345", "lm1", "Trademark"⟩
          [⟨⟨"2024-03-01T10:00:00.000Z"⟩, "NOA", "http://a"⟩,
           ⟨⟨"2024-03-01T08:00:00.000Z"⟩, "XML", "http://b"⟩]
          (fun _ => none) "2024-03-01"
          (fun d => if d.description = "NOA"
            then Except.error "sendMail rejected" else Except.ok ())).1
        = [⟨⟨"2024-03-01T10:00:00.000Z"⟩, "NOA", "http://a"⟩]
    ∧ (processMatterRun ⟨"12345", "lm1", "Trademark"⟩
          [⟨⟨"2024-03-01T10:00:00.000Z"⟩, "NOA", "http://a"⟩,
           ⟨⟨"2024-03-01T08:00:00.000Z"⟩, "XML", "http://b"⟩]
          (fun _ => none) "2024-03-01"
          (fun d => if d.description = "NOA"
            then Except.error "sendMail rejected" else Except.ok ())).2.1
          "12345"
        = none
    ∧ (processMatterRun ⟨"12345", "lm1", "Trademark"⟩
          [⟨⟨"2024-03-01T10:00:00.000Z"⟩, "NOA", "http://a"⟩,
           ⟨⟨"2024-03-01T08:00:00.000Z"⟩, "XML", "http://b"⟩]
          (fun _ => none) "2024-03-01"
          (fun d => if d.description = "NOA"
            then Except.error "sendMail rejected" else Except.ok ())).2.2
        = some "sendMail rejected" := by
  refine ⟨by decide, by decide, by decide, by decide⟩

/-- C2 (amended): for the unified monitor's `processMatter`, when the
fetched (descending-sorted) document list has several novel documents
sharing the latest novel date and the awaited pipeline call completes
without rejecting for each document of that date, every document of the
shared latest date is handed to `processSingleDocument` (not just the
first) and the processed-state entry of the matter's application number is
advanced once, to that shared date, after the whole batch. -/
theorem processMatterRun_latest_date_batch (matter : Matter)
    (allDocs : List Doc) (state : StateMap) (todayDate : String)
    (pipeline : Doc → Except String Unit)
    (hty : matter.type = "Patent" ∨ matter.type = "Trademark")
    (hsort : allDocs.Pairwise
      (fun a b => codes (dateKey b.date) ≤ codes (dateKey a.date)))
    (d0 : Doc) (rest : List Doc)
    (hfil : allDocs.filter
        (fun doc =>
          isNewDocument doc.date (state matter.applicationNumber) todayDate)
      = d0 :: rest)
    (hmulti : 1 < ((d0 :: rest).filter
        (fun doc => dateKey doc.date = dateKey d0.date)).length)
    (hok : ∀ doc ∈ (d0 :: rest).filter
        (fun doc => dateKey doc.date = dateKey d0.date),
        pipeline doc = Except.ok ()) :
    (processMatterRun matter allDocs state todayDate pipeline).2.2 = none
    ∧ (∀ doc ∈ allDocs,
        isNewDocument doc.date (state matter.applicationNumber) todayDate = true →
        dateKey doc.date = dateKey d0.date →
        doc ∈ (processMatterRun matter allDocs state todayDate pipeline).1)
    ∧ 1 < (processMatterRun matter allDocs state todayDate pipeline).1.length
    ∧ (∀ doc ∈ d0 :: rest,
        codes (dateKey doc.date) ≤ codes (dateKey d0.date))
    ∧ (processMatterRun matter allDocs state todayDate pipeline).2.1
        matter.applicationNumber = some (dateKey d0.date) := by
  have hty2 : ¬(matter.type ≠ "Patent" ∧ matter.type ≠ "Trademark") := by
    rcases hty with h | h <;> simp [h]
  have hne : allDocs ≠ [] := by
    intro h
    rw [h] at hfil
    simp at hfil
  have hemp : allDocs.isEmpty = false := by
    simpa using hne
  have hloop2 : pipelineLoop pipeline
      (d0 :: rest.filter (fun doc => dateKey doc.date = dateKey d0.date))
      = (d0 :: rest.filter (fun doc => dateKey doc.date = dateKey d0.date),
        none) := by
    simpa using pipelineLoop_ok pipeline
      ((d0 :: rest).filter (fun doc => dateKey doc.date = dateKey d0.date)) hok
  have hred : processMatterRun matter allDocs state todayDate pipeline
      = (d0 :: rest.filter (fun doc => dateKey doc.date = dateKey d0.date),
         stateSet state matter.applicationNumber (dateKey d0.date), none) := by
    simp [processMatterRun, hty2, hemp, hfil, hloop2]
  refine ⟨by rw [hred], ?_, ?_, ?_, ?_⟩
  · intro doc hmem hnew hkey
    rw [hred]
    have hdmem : doc ∈ d0 :: rest := by
      rw [← hfil]
      exact List.mem_filter.mpr ⟨hmem, by simpa using hnew⟩
    rcases List.mem_cons.mp hdmem with h | h
    · rw [h]
      exact List.mem_cons_self _ _
    · exact List.mem_cons_of_mem _
        (List.mem_filter.mpr ⟨h, by simpa using hkey⟩)
  · rw [hred]
    simpa using hmulti
  · have hps : (d0 :: rest).Pairwise
        (fun a b => codes (dateKey b.date) ≤ codes (dateKey a.date)) := by
      rw [← hfil]
      exact hsort.filter _
    intro doc hmem
    rcases List.mem_cons.mp hmem with h | h
    · rw [h]
    · exact (List.pairwise_cons.mp hps).1 doc h
  · rw [hred]
    simp [stateSet]

theorem processMatterRun_latest_date_batch_witness :
    (processMatterRun ⟨"12345", "lm1", "Trademark"⟩
          [⟨⟨"2024-03-01T10:00:00.000Z"⟩, "NOA", "http://a"⟩,
           ⟨⟨"2024-03-01T08:00:00.000Z"⟩, "XML", "http://b"⟩,
           ⟨⟨"2024-02-15T00:00:00.000Z"⟩, "OLD", "http://c"⟩]
          (fun _ => none) "2024-03-01" (fun _ => Except.ok ())).2.2 = none
    ∧ 1 < (processMatterRun ⟨"12345", "lm1", "Trademark"⟩
          [⟨⟨"2024-03-01T10:00:00.000Z"⟩, "NOA", "http://a"⟩,
           ⟨⟨"2024-03-01T08:00:00.000Z"⟩, "XML", "http://b"⟩,
           ⟨⟨"2024-02-15T00:00:00.000Z"⟩, "OLD", "http://c"⟩]
          (fun _ => none) "2024-03-01" (fun _ => Except.ok ())).1.length
    ∧ (processMatterRun ⟨"12345", "lm1", "Trademark"⟩
          [⟨⟨"2024-03-01T10:00:00.000Z"⟩, "NOA", "http://a"⟩,
           ⟨⟨"2024-03-01T08:00:00.000Z"⟩, "XML", "http://b"⟩,
           ⟨⟨"2024-02-15T00:00:00.000Z"⟩, "OLD", "http://c"⟩]
          (fun _ => none) "2024-03-01" (fun _ => Except.ok ())).2.1 "12345"
        = some "2024-03-01" := by
  have h := processMatterRun_latest_date_batch ⟨"12345", "lm1", "Trademark"⟩
    [⟨⟨"2024-03-01T10:00:00.000Z"⟩, "NOA", "http://a"⟩,
     ⟨⟨"2024-03-01T08:00:00.000Z"⟩, "XML", "http://b"⟩,
     ⟨⟨"2024-02-15T00:00:00.000Z"⟩, "OLD", "http://c"⟩]
    (fun _ => none) "2024-03-01" (fun _ => Except.ok ()) (Or.inr rfl)
    (by decide)
    ⟨⟨"2024-03-01T10:00:00.000Z"⟩, "NOA", "http://a"⟩
    [⟨⟨"2024-03-01T08:00:00.000Z"⟩, "XML", "http://b"⟩] (by decide) (by decide)
    (fun doc hdoc => rfl)
  refine ⟨h.1, h.2.2.1, ?_⟩
  have hk : dateKey ⟨"2024-03-01T10:00:00.000Z"⟩ = "2024-03-01" := by decide
  rw [← hk]
  exact h.2.2.2.2

/-- C9: neither variant of `processMatter` ever writes a processed-state
entry other than its own matter's application number; every other key maps
to the same value after the call as before it. -/
theorem processMatter_state_frame (matter : Matter) (allDocs : List Doc)
    (state : StateMap) (todayDate : String) (k : String)
    (hk : k ≠ matter.applicationNumber) :
    (processMatter matter allDocs state todayDate).state k = state k
    ∧ ∀ latestDoc,
        (Cron.processMatter matter latestDoc state todayDate).state k = state k := by
  constructor
  case right =>
    intro latestDoc
    unfold Cron.processMatter
    by_cases hty : matter.type ≠ "Patent" ∧ matter.type ≠ "Trademark"
    · simp [hty]
    · cases latestDoc with
      | none => simp [hty]
      | some doc =>
        by_cases hnew : isNewDocument doc.date
            (state matter.applicationNumber) todayDate = true
        · simp [hty, hnew, stateSet, hk]
        · simp [hty, hnew]
  unfold processMatter
  by_cases hty : matter.type ≠ "Patent" ∧ matter.type ≠ "Trademark"
  · simp [hty]
  · by_cases hemp : allDocs.isEmpty
    · simp [hty, hemp]
    · rcases hfil : allDocs.filter
          (fun doc =>
            isNewDocument doc.date (state matter.applicationNumber) todayDate)
        with _ | ⟨d0, rest⟩
      · simp [hty, hemp, hfil]
      · simp [hty, hemp, hfil, stateSet, hk]

theorem processMatter_state_frame_witness :
    ("99999" ≠ "12345")
    ∧ (processMatter ⟨"12345", "lm1", "Trademark"⟩
          [⟨⟨"2024-03-01T10:15:00.000Z"⟩, "NOTICE", "http://x"⟩]
          (fun k => if k = "99999" then some "2020-05-05" else none)
          "2024-03-01").state "99999"
        = (fun k => if k = "99999" then some "2020-05-05" else none) "99999" :=
  ⟨by decide,
   (processMatter_state_frame ⟨"12345", "lm1", "Trademark"⟩
     [⟨⟨"2024-03-01T10:15:00.000Z"⟩, "NOTICE", "http://x"⟩]
     (fun k => if k = "99999" then some "2020-05-05" else none)
     "2024-03-01" "99999" (by decide)).1⟩

/-! ## Run orchestration and the in-flight guard

`processAllMatters` (`src/lib/unified-uspto-monitor.js` lines 819-875) runs
the per-matter chain inside one `try { for (...) { await processMatter(...) } }
catch { return {success:false} }`; `processSingleMatter` and
`processMultipleMatters` (the automation controller, `src/unnamed/part_000`)
guard each attempt with the `currentlyProcessing` set and a per-attempt
`try/catch/finally`.  The awaited per-matter processing (which performs the
side-effect pipeline and can reject, e.g. `transporter.sendMail` inside
`sendEmailNotification` is not wrapped in a `try/catch`) is embedded as a
parameter `run` returning `Except String Bool`: `Except.error e` models a
thrown exception, `Except.ok b` a normal return whose `processed` flag is
`b`. -/

/-- JS `Set.add`: appends the element if it is not already a member. -/
def setAdd (s : List String) (x : String) : List String :=
  if x ∈ s then s else s ++ [x]

/-- JS `Set.delete`: removes the element. -/
def setDelete (s : List String) (x : String) : List String :=
  s.filter (fun y => y ≠ x)

theorem not_mem_setDelete (s : List String) (x : String) :
    x ∉ setDelete s x := by
  intro h
  simpa using (List.mem_filter.mp h).2

theorem setDelete_setAdd_of_not_mem (s : List String) (x : String)
    (h : x ∉ s) : setDelete (setAdd s x) x = s := by
  unfold setAdd setDelete
  rw [if_neg h]
  simp
  intro a ha hax
  exact h (hax ▸ ha)

/-- Outcome of `processSingleMatter(lawmaticsId)` in the automation
controller: the returned `{success, message}` envelope, the
`currentlyProcessing` set when the call returns, and the sequence of display
statuses passed to `updateMatterStatus` for this matter during the call. -/
structure SingleOutcome where
  success : Bool
  message : String
  inFlight : List String
  statusUpdates : List String

/-- Embedding of `processSingleMatter` (`src/unnamed/part_000` lines
158-205).  `found` is the result of `getMattersByIds([lawmaticsId])`
(`none` = not in `map.json`); `run` is the awaited
`automation.processMatter` call.  The `finally` block always deletes the
identifier from `currentlyProcessing`. -/
def processSingleMatter (inFlight : List String) (lawmaticsId : String)
    (found : Option Matter) (run : Except String Bool) : SingleOutcome :=
  if lawmaticsId ∈ inFlight then
    ⟨false, "Matter is already being processed", inFlight, []⟩
  else
    let fl := setAdd inFlight lawmaticsId
    match found with
    | none =>
      ⟨false, "Matter not found", setDelete fl lawmaticsId,
        ["Processing...", "Failed - Not Found"]⟩
    | some _ =>
      match run with
      | Except.ok processed =>
        ⟨true,
          if processed then "New document processed" else "No new documents found",
          setDelete fl lawmaticsId,
          ["Processing...",
            if processed then "Automation Completed" else "No Updates Found"]⟩
      | Except.error e =>
        ⟨false, e, setDelete fl lawmaticsId, ["Processing...", "Failed"]⟩

/-- One entry of the `results` array built by `processMultipleMatters`. -/
structure TargetedItem where
  lawmaticsId : String
  success : Bool
  processed : Bool
  message : String
deriving DecidableEq, Repr

/-- The per-matter loop of `processMultipleMatters` (`src/unnamed/part_000`
lines 229-273): skip matters already in `currentlyProcessing`, otherwise
add to the set, run, record the result (`catch` records a failed item), and
`finally` delete from the set.  Returns
(results, processedCount, final currentlyProcessing). -/
def targetedLoop (run : Matter → Except String Bool) :
    List Matter → List String → List TargetedItem × Nat × List String
  | [], fl => ([], 0, fl)
  | m :: rest, fl =>
    if m.lawmaticsID ∈ fl then
      let t := targetedLoop run rest fl
      (⟨m.lawmaticsID, false, false, "Already being processed"⟩ :: t.1,
        t.2.1, t.2.2)
    else
      let fl2 := setDelete (setAdd fl m.lawmaticsID) m.lawmaticsID
      match run m with
      | Except.ok processed =>
        let t := targetedLoop run rest fl2
        (⟨m.lawmaticsID, true, processed,
            if processed then "New document processed" else "No new documents"⟩
            :: t.1,
          (if processed then 1 else 0) + t.2.1, t.2.2)
      | Except.error e =>
        let t := targetedLoop run rest fl2
        (⟨m.lawmaticsID, false, false, e⟩ :: t.1, t.2.1, t.2.2)

/-- Outcome of `processMultipleMatters`: the returned envelope fields, plus
the number of consolidated "all matters up to date" confirmation emails sent
(`sendConfirmationEmail` is called exactly when `processedCount === 0`) and
the final `currentlyProcessing` set. -/
structure TargetedOutcome where
  success : Bool
  results : List TargetedItem
  processedCount : Nat
  confirmationEmails : Nat
  inFlight : List String

/-- Embedding of `processMultipleMatters(lawmaticsIds)` (`src/unnamed/part_000`
lines 209-304).  `matters` is the list that `getMattersByIds` resolved; an
empty list returns `{success:false, message:'No valid matters found'}`
without running the loop or sending any email. -/
def processMultipleMatters (matters : List Matter) (inFlight : List String)
    (run : Matter → Except String Bool) : TargetedOutcome :=
  if matters.isEmpty then ⟨false, [], 0, 0, inFlight⟩
  else
    let t := targetedLoop run matters inFlight
    ⟨true, t.1, t.2.1, if t.2.1 = 0 then 1 else 0, t.2.2⟩

/-- Outcome of `processAllMatters`: the `success` flag, the application
numbers of the matters whose processing was started (in order), and the
error captured by the surrounding `catch`, if any. -/
structure SweepOutcome where
  success : Bool
  attempted : List String
  error : Option String

/-- The `for (const matter of matters)` loop of `processAllMatters`
(`src/lib/unified-uspto-monitor.js` lines 839-849).  There is no per-matter
`try/catch`: a rejection propagates out of the loop to the single `catch`
wrapping the whole function, so the remaining matters are not attempted. -/
def sweepLoop (run : Matter → Except String Bool) :
    List Matter → List String × Option String
  | [] => ([], none)
  | m :: rest =>
    match run m with
    | Except.error e => ([m.applicationNumber], some e)
    | Except.ok _ =>
      let t := sweepLoop run rest
      (m.applicationNumber :: t.1, t.2)

/-- Embedding of `processAllMatters()` (`src/lib/unified-uspto-monitor.js`
lines 819-875). -/
def processAllMatters (matters : List Matter)
    (run : Matter → Except String Bool) : SweepOutcome :=
  if matters.isEmpty then ⟨false, [], some "No matters found"⟩
  else
    let t := sweepLoop run matters
    ⟨t.2.isNone, t.1, t.2⟩

/-- C4 fails on `processAllMatters`: with two matters where processing the
first throws (e.g. `sendEmailNotification`'s `transporter.sendMail`
rejects), the sweep's single surrounding `catch` aborts the loop and the
second matter is never attempted — whereas the targeted
`processMultipleMatters` loop, whose body has a per-matter `try/catch`,
attempts both matters on the same input. -/
theorem processAllMatters_abort_on_exception_eval :
    (processAllMatters
        [⟨"11111111", "lm1", "Patent"⟩, ⟨"22222222", "lm2", "Trademark"⟩]
        (fun m => if m.applicationNumber = "11111111"
          then Except.error "sendMail rejected" else Except.ok true)).attempted
      = ["11111111"]
    ∧ (processAllMatters
        [⟨"11111111", "lm1", "Patent"⟩, ⟨"22222222", "lm2", "Trademark"⟩]
        (fun m => if m.applicationNumber = "11111111"
          then Except.error "sendMail rejected" else Except.ok true)).success
      = false
    ∧ ((processMultipleMatters
        [⟨"11111111", "lm1", "Patent"⟩, ⟨"22222222", "lm2", "Trademark"⟩] []
        (fun m => if m.applicationNumber = "11111111"
          then Except.error "sendMail rejected" else Except.ok true)).results.map
        (fun r => r.lawmaticsId))
      = ["lm1", "lm2"] := by
  refine ⟨by decide, by decide, by decide⟩

theorem targetedLoop_inFlight (run : Matter → Except String Bool)
    (ms : List Matter) : ∀ fl, (targetedLoop run ms fl).2.2 = fl := by
  induction ms with
  | nil => intro fl; rfl
  | cons m rest ih =>
    intro fl
    unfold targetedLoop
    by_cases hm : m.lawmaticsID ∈ fl
    · simp only [if_pos hm]
      exact ih fl
    · rw [if_neg hm, setDelete_setAdd_of_not_mem fl _ hm]
      cases run m with
      | ok p => simpa using ih fl
      | error e => simpa using ih fl

/-- C5: a processing attempt for an identifier already in
`currentlyProcessing` is immediately rejected with the structured
"already being processed" result and leaves the set untouched; an attempt
that does start always ends with the identifier removed from the set, on
the not-found, processed, no-updates and exception paths alike; and the
targeted batch loop likewise restores `currentlyProcessing` to its initial
contents. -/
theorem inFlightGuard_reject_and_release (inFlight : List String)
    (id : String) (found : Option Matter) (run : Except String Bool)
    (matters : List Matter) (runs : Matter → Except String Bool) :
    (id ∈ inFlight →
      (processSingleMatter inFlight id found run).success = false
      ∧ (processSingleMatter inFlight id found run).message
          = "Matter is already being processed"
      ∧ (processSingleMatter inFlight id found run).inFlight = inFlight)
    ∧ (id ∉ inFlight →
      id ∉ (processSingleMatter inFlight id found run).inFlight
      ∧ (processSingleMatter inFlight id found run).inFlight = inFlight)
    ∧ (processMultipleMatters matters inFlight runs).inFlight = inFlight := by
  refine ⟨fun hm => ?_, fun hm => ?_, ?_⟩
  · simp [processSingleMatter, hm]
  · have hrel := setDelete_setAdd_of_not_mem inFlight id hm
    unfold processSingleMatter
    rw [if_neg hm]
    cases found with
    | none => exact ⟨not_mem_setDelete _ _, hrel⟩
    | some m =>
      cases run with
      | ok p => exact ⟨not_mem_setDelete _ _, hrel⟩
      | error e => exact ⟨not_mem_setDelete _ _, hrel⟩
  · unfold processMultipleMatters
    by_cases he : matters.isEmpty
    · simp [he]
    · simp [he, targetedLoop_inFlight]

theorem inFlightGuard_reject_and_release_witness :
    (processSingleMatter ["lm1"] "lm1" none (Except.ok true)).message
      = "Matter is already being processed"
    ∧ "lm2" ∉ (processSingleMatter [] "lm2" (some ⟨"1", "lm2", "Patent"⟩)
        (Except.error "boom")).inFlight :=
  ⟨((inFlightGuard_reject_and_release ["lm1"] "lm1" none (Except.ok true) []
      (fun _ => Except.ok true)).1 (by decide)).2.1,
   ((inFlightGuard_reject_and_release [] "lm2" (some ⟨"1", "lm2", "Patent"⟩)
      (Except.error "boom") [] (fun _ => Except.ok true)).2.1 (by decide)).1⟩

/-- C7: every attempt of `processSingleMatter` that passes the in-flight
guard issues exactly two display-status updates for the matter: the
intermediate "Processing..." at the start, and one terminal value
(completed / no-updates / failed / failed-not-found) at the end, on the
success, no-novel-documents, matter-not-found and exception paths alike. -/
theorem processSingleMatter_status_lifecycle (inFlight : List String)
    (id : String) (found : Option Matter) (run : Except String Bool)
    (h : id ∉ inFlight) :
    ∃ t, (processSingleMatter inFlight id found run).statusUpdates
        = ["Processing...", t]
      ∧ (t = "Automation Completed" ∨ t = "No Updates Found"
         ∨ t = "Failed" ∨ t = "Failed - Not Found") := by
  unfold processSingleMatter
  rw [if_neg h]
  cases found with
  | none => exact ⟨"Failed - Not Found", rfl, by simp⟩
  | some m =>
    cases run with
    | ok p =>
      cases p with
      | false => exact ⟨"No Updates Found", rfl, by simp⟩
      | true => exact ⟨"Automation Completed", rfl, by simp⟩
    | error e => exact ⟨"Failed", rfl, by simp⟩

theorem processSingleMatter_status_lifecycle_witness :
    ∃ t, (processSingleMatter [] "lm9" (some ⟨"1", "lm9", "Patent"⟩)
        (Except.error "boom")).statusUpdates = ["Processing...", t]
      ∧ (t = "Automation Completed" ∨ t = "No Updates Found"
         ∨ t = "Failed" ∨ t = "Failed - Not Found") :=
  processSingleMatter_status_lifecycle [] "lm9" (some ⟨"1", "lm9", "Patent"⟩)
    (Except.error "boom") (by decide)

theorem targetedLoop_count (run : Matter → Except String Bool)
    (ms : List Matter) : ∀ fl,
    (targetedLoop run ms fl).2.1
      = ((targetedLoop run ms fl).1.filter (fun r => r.processed)).length := by
  induction ms with
  | nil => intro fl; rfl
  | cons m rest ih =>
    intro fl
    unfold targetedLoop
    by_cases hm : m.lawmaticsID ∈ fl
    · simp only [if_pos hm]
      simpa [List.filter_cons] using ih fl
    · rw [if_neg hm]
      cases run m with
      | ok p =>
        cases p with
        | false => simpa [List.filter_cons] using ih _
        | true =>
          have h2 := ih (setDelete (setAdd fl m.lawmaticsID) m.lawmaticsID)
          simp [List.filter_cons, h2, Nat.add_comm]
      | error e => simpa [List.filter_cons] using ih _

/-- C8: a non-empty targeted batch run sends exactly one consolidated
"all matters up to date" confirmation email iff none of its per-matter
results carries a processed novel document, and sends none as soon as at
least one matter had a document processed. -/
theorem processMultipleMatters_consolidated_email (matters : List Matter)
    (inFlight : List String) (run : Matter → Except String Bool)
    (hne : matters ≠ []) :
    ((processMultipleMatters matters inFlight run).confirmationEmails = 1
      ↔ ∀ r ∈ (processMultipleMatters matters inFlight run).results,
          r.processed = false)
    ∧ ((∃ r ∈ (processMultipleMatters matters inFlight run).results,
          r.processed = true)
      → (processMultipleMatters matters inFlight run).confirmationEmails = 0) := by
  have hemp : matters.isEmpty = false := by simpa using hne
  have hred : processMultipleMatters matters inFlight run
      = ⟨true, (targetedLoop run matters inFlight).1,
          (targetedLoop run matters inFlight).2.1,
          if (targetedLoop run matters inFlight).2.1 = 0 then 1 else 0,
          (targetedLoop run matters inFlight).2.2⟩ := by
    unfold processMultipleMatters
    rw [if_neg (by simp [hemp])]
  rw [hred]
  have hcount := targetedLoop_count run matters inFlight
  constructor
  · constructor
    · intro h1 r hr
      by_cases h0 : (targetedLoop run matters inFlight).2.1 = 0
      · have hlen : ((targetedLoop run matters inFlight).1.filter
            (fun r => r.processed)).length = 0 := by
          rw [← hcount]
          exact h0
        have hnil := List.length_eq_zero.mp hlen
        have := List.filter_eq_nil_iff.mp hnil r hr
        simpa using this
      · simp [h0] at h1
    · intro hall
      have hnil : (targetedLoop run matters inFlight).1.filter
          (fun r => r.processed) = [] :=
        List.filter_eq_nil_iff.mpr (fun r hr => by simp [hall r hr])
      have h0 : (targetedLoop run matters inFlight).2.1 = 0 := by
        rw [hcount, hnil]
        rfl
      simp [h0]
  · rintro ⟨r, hr, hp⟩
    have hnz : (targetedLoop run matters inFlight).2.1 ≠ 0 := by
      rw [hcount]
      intro h0
      have hnil := List.length_eq_zero.mp h0
      have := List.filter_eq_nil_iff.mp hnil r hr
      simp [hp] at this
    simp [hnz]

theorem processMultipleMatters_consolidated_email_witness :
    (processMultipleMatters
        [⟨"1", "a", "Patent"⟩, ⟨"2", "b", "Patent"⟩, ⟨"3", "c", "Trademark"⟩]
        [] (fun _ => Except.ok false)).confirmationEmails = 1 :=
  ((processMultipleMatters_consolidated_email
      [⟨"1", "a", "Patent"⟩, ⟨"2", "b", "Patent"⟩, ⟨"3", "c", "Trademark"⟩]
      [] (fun _ => Except.ok false) (by decide)).1).mpr (by decide)

/-! ## Document source adapters

`fetchAllTrademarkDocs` / `fetchAllPatentDocs`
(`src/lib/unified-uspto-monitor.js` lines 139-185 and 190-229) wrap the
whole registry call in `try { ... } catch { return [] }`.  The HTTP/XML
round trip is embedded as `resp : Except String (List Raw…Doc)` (the payload
the call would deliver, or the error it would throw), and the external
`new Date(...)`/`isNaN` date parsing — including the regex strip of a
trailing `-hh:mm` timezone suffix applied to trademark raw dates — as a
parameter `parse : String → Option JSDate` (`none` models an
unparseable date, i.e. `isNaN(dateObj)`). -/

/-- One entry of the parsed trademark XML `DocumentList.Document` array. -/
structure RawTrademarkDoc where
  mailRoomDate : Option String
  scanDateTime : Option String
  documentTypeDescriptionText : Option String
  urlPath : Option String
deriving DecidableEq, Repr

/-- One entry of the patent JSON `documentBag` array. -/
structure RawPatentDoc where
  officialDate : String
  documentCodeDescriptionText : Option String
  documentCode : Option String
  directionCategory : Option String
  downloadUrl : Option String
deriving DecidableEq, Repr

/-- A parsed patent document (`{date, description, documentCode, category,
link}`). -/
structure PatentDoc where
  date : JSDate
  description : String
  documentCode : String
  category : String
  link : String
deriving DecidableEq, Repr

/-- JS `a || b` for a possibly-absent string `a`: the default is used when
`a` is absent or empty (falsy). -/
def jsOrElse (a : Option String) (b : String) : String :=
  match a with
  | none => b
  | some s => if s = "" then b else s

/-- The raw date string of a trademark document:
`doc.MailRoomDate?.[0] || doc.ScanDateTime?.[0] || ""`. -/
def trademarkRawDate (rd : RawTrademarkDoc) : String :=
  jsOrElse rd.mailRoomDate (jsOrElse rd.scanDateTime "")

/-- The sort comparator `(a, b) => b.date - a.date`: `a` may precede `b`
exactly when `a.date ≥ b.date` (descending by date value; on the
fixed-width `toISOString` representation the numeric order of `Date`s is
the lexicographic order of their ISO strings). -/
def docDescLe (a b : Doc) : Bool := decide (codes b.date.iso ≤ codes a.date.iso)

/-- Descending comparator for patent documents (same `b.date - a.date`). -/
def patentDescLe (a b : PatentDoc) : Bool :=
  decide (codes b.date.iso ≤ codes a.date.iso)

/-- Embedding of `fetchAllTrademarkDocs(applicationNumber)`
(`src/lib/unified-uspto-monitor.js` lines 139-185): on a thrown error the
`catch` returns `[]`; an empty `DocumentList` returns `[]`; otherwise the
entries are mapped to `{date, description, link}`, entries whose date did
not parse are dropped (`.filter(doc => doc.date !== null)`), and the rest
are sorted descending by date. -/
def fetchAllTrademarkDocs (parse : String → Option JSDate)
    (resp : Except String (List RawTrademarkDoc)) : List Doc :=
  match resp with
  | Except.error _ => []
  | Except.ok docs =>
    if docs.isEmpty then []
    else
      (docs.filterMap (fun rd =>
        (parse (trademarkRawDate rd)).map (fun dt =>
          ({ date := dt,
             description := jsOrElse rd.documentTypeDescriptionText "Unknown",
             link := jsOrElse rd.urlPath "N/A" } : Doc)))).mergeSort docDescLe

/-- Embedding of `fetchAllPatentDocs(applicationNumber)`
(`src/lib/unified-uspto-monitor.js` lines 190-229): same shape as the
trademark fetcher, with `officialDate` as the date source and the extra
`documentCode` / `category` fields (the `.filter(doc => !isNaN(doc.date))`
step drops unparseable dates). -/
def fetchAllPatentDocs (parse : String → Option JSDate)
    (resp : Except String (List RawPatentDoc)) : List PatentDoc :=
  match resp with
  | Except.error _ => []
  | Except.ok docs =>
    if docs.isEmpty then []
    else
      (docs.filterMap (fun rd =>
        (parse rd.officialDate).map (fun dt =>
          ({ date := dt,
             description := jsOrElse rd.documentCodeDescriptionText "Unknown",
             documentCode := jsOrElse rd.documentCode "N/A",
             category := jsOrElse rd.directionCategory "N/A",
             link := jsOrElse rd.downloadUrl "N/A" } : PatentDoc)))).mergeSort
        patentDescLe

theorem docDescLe_trans (a b c : Doc) (hab : docDescLe a b = true)
    (hbc : docDescLe b c = true) : docDescLe a c = true := by
  simp [docDescLe] at *
  exact le_trans hbc hab

theorem docDescLe_total (a b : Doc) : (docDescLe a b || docDescLe b a) = true := by
  simp [docDescLe]
  exact (le_total (codes b.date.iso) (codes a.date.iso))

theorem patentDescLe_trans (a b c : PatentDoc) (hab : patentDescLe a b = true)
    (hbc : patentDescLe b c = true) : patentDescLe a c = true := by
  simp [patentDescLe] at *
  exact le_trans hbc hab

theorem patentDescLe_total (a b : PatentDoc) :
    (patentDescLe a b || patentDescLe b a) = true := by
  simp [patentDescLe]
  exact (le_total (codes b.date.iso) (codes a.date.iso))

/-- C6: both fetchers always return a list sorted descending by date; a
thrown registry call (timeout, non-2xx, malformed payload) yields the empty
list through the surrounding `catch` (the embedding is a total function, so
nothing escapes the boundary); and every returned document carries a date
that parsed successfully from some raw entry of the payload — undated
entries are discarded. -/
theorem fetchDocs_sorted_safe (parse : String → Option JSDate) :
    (∀ resp, (fetchAllTrademarkDocs parse resp).Pairwise
        (fun a b => codes b.date.iso ≤ codes a.date.iso))
    ∧ (∀ e, fetchAllTrademarkDocs parse (Except.error e) = [])
    ∧ (∀ docs, ∀ d ∈ fetchAllTrademarkDocs parse (Except.ok docs),
        ∃ rd ∈ docs, parse (trademarkRawDate rd) = some d.date)
    ∧ (∀ resp, (fetchAllPatentDocs parse resp).Pairwise
        (fun a b => codes b.date.iso ≤ codes a.date.iso))
    ∧ (∀ e, fetchAllPatentDocs parse (Except.error e) = [])
    ∧ (∀ docs, ∀ d ∈ fetchAllPatentDocs parse (Except.ok docs),
        ∃ rd ∈ docs, parse rd.officialDate = some d.date) := by
  refine ⟨?_, fun e => rfl, ?_, ?_, fun e => rfl, ?_⟩
  · intro resp
    cases resp with
    | error e => exact List.Pairwise.nil
    | ok docs =>
      simp only [fetchAllTrademarkDocs]
      by_cases he : docs.isEmpty
      · simp [he]
      · rw [if_neg he]
        exact (List.sorted_mergeSort docDescLe_trans docDescLe_total _).imp
          (fun hab => by simpa [docDescLe] using hab)
  · intro docs d hd
    simp only [fetchAllTrademarkDocs] at hd
    by_cases he : docs.isEmpty
    · simp [he] at hd
    · rw [if_neg he] at hd
      obtain ⟨rd, hrd, hmap⟩ := List.mem_filterMap.mp (List.mem_mergeSort.mp hd)
      obtain ⟨dt, hdt, hrec⟩ := Option.map_eq_some'.mp hmap
      refine ⟨rd, hrd, ?_⟩
      rw [hdt, ← hrec]
  · intro resp
    cases resp with
    | error e => exact List.Pairwise.nil
    | ok docs =>
      simp only [fetchAllPatentDocs]
      by_cases he : docs.isEmpty
      · simp [he]
      · rw [if_neg he]
        exact (List.sorted_mergeSort patentDescLe_trans patentDescLe_total _).imp
          (fun hab => by simpa [patentDescLe] using hab)
  · intro docs d hd
    simp only [fetchAllPatentDocs] at hd
    by_cases he : docs.isEmpty
    · simp [he] at hd
    · rw [if_neg he] at hd
      obtain ⟨rd, hrd, hmap⟩ := List.mem_filterMap.mp (List.mem_mergeSort.mp hd)
      obtain ⟨dt, hdt, hrec⟩ := Option.map_eq_some'.mp hmap
      refine ⟨rd, hrd, ?_⟩
      rw [hdt, ← hrec]

theorem fetchDocs_sorted_safe_witness :
    fetchAllTrademarkDocs (fun s => if s = "" then none else some ⟨s⟩)
        (Except.error "timeout") = []
    ∧ ∃ rd ∈ [(⟨some "2024-03-01", none, some "NOA", some "http://a"⟩ :
          RawTrademarkDoc),
        ⟨none, none, some "UNDATED", none⟩],
        (fun s => if s = "" then none else some (⟨s⟩ : JSDate))
            (trademarkRawDate rd) = some (⟨"2024-03-01"⟩ : JSDate) := by
  refine ⟨(fetchDocs_sorted_safe (fun s => if s = "" then none else some ⟨s⟩)).2.1
    "timeout", ?_⟩
  exact (fetchDocs_sorted_safe (fun s => if s = "" then none else some ⟨s⟩)).2.2.1
    [⟨some "2024-03-01", none, some "NOA", some "http://a"⟩,
     ⟨none, none, some "UNDATED", none⟩]
    ⟨⟨"2024-03-01"⟩, "NOA", "http://a"⟩
    (by
      simp only [fetchAllTrademarkDocs]
      rw [if_neg (by decide), List.mem_mergeSort]
      decide)

end USPTO
